import Mathlib

/-!
Verification of the View class of extrajs-view (src/index.js).

The embedding models the canonical `View` class: a callable object whose
default rendering is compiled at construction time into a JavaScript
template-literal body, and whose named renderings are attached as own
properties by `addDisplay`.  Machinery from the JavaScript language that the
class relies on (template-literal cooked-string evaluation with its
line-terminator normalization, the Function constructor parse check,
own-property tables with writable attributes and the strict-mode assignment
semantics of class code) is modelled explicitly; the modelled fragment is
noted on each definition.
-/

set_option autoImplicit false

/-- A JavaScript value, as far as the View class inspects values: the class
only distinguishes strings (which can be escaped and embedded) from
non-strings.  Function values that flow into data positions (for example a
display wrapper stored in a property) are opaque, represented by
`vfunMarker`. -/
inductive JSVal where
  | vstr (s : List Char)
  | vnum (n : Int)
  | vbool (b : Bool)
  | vundef
  | vfunMarker
  | vother (tag : Nat)
  deriving DecidableEq, Repr

/-- A JavaScript error, as raised by the code paths of src/index.js: the
ReferenceError thrown by the compiled no-default body (with the message
string from the source), the TypeError raised when a property is missing or
not usable (calling .replace on a non-string, or a strict-mode write to a
non-writable property), and the parse error raised by the Function
constructor on a malformed body (a JavaScript SyntaxError). -/
inductive JSErr where
  | referenceError (msg : String)
  | typeError
  | parseError
  deriving DecidableEq, Repr

/-- A JavaScript function value as passed to addDisplay: its intrinsic
`name` and its behaviour when called with a context (`this`) and an argument
list.  Anonymous function expressions have the empty string as name. -/
structure JSFun where
  name : String
  call : JSVal → List JSVal → JSVal

/-- One entry of the own-property table of a View object.  In JavaScript
the field `_DATA`, the intrinsic function properties and the display
wrappers attached by addDisplay live in the same own-property namespace of
the object; `pval` is a plain data property carrying its writable
attribute, `pdisp` is a stored display wrapper (always writable, as any
property created by plain assignment) closing over the renderer function
and its bound context (the wrapper of src/index.js line 85). -/
inductive PropEntry where
  | pval (writable : Bool) (v : JSVal)
  | pdisp (f : JSFun) (ctx : JSVal)

/-- The function body compiled by `super(...)` in the constructor: either the
throwing body of the null branch (line 68) or a template-literal body
holding the escaped rendered string (line 73). -/
inductive Body where
  | throwNoDefault
  | template (b : List Char)
  deriving DecidableEq, Repr

/-- The View object: the compiled default body plus the own-property
table. -/
structure View where
  body : Body
  props : List (String × PropEntry)

/-- One global single-character regex replacement, as performed by
`String.prototype.replace` with a single-character pattern and global flag:
every occurrence of `c` is replaced by the character list `r`. -/
def replaceChar (c : Char) (r : List Char) : List Char → List Char
  | [] => []
  | x :: xs => (if x = c then r else [x]) ++ replaceChar c r xs

/-- The escaping performed by the constructor (src/index.js lines 70 to 72):
first every backslash is doubled, then every backtick is prefixed with a
backslash. -/
def escapeChars (s : List Char) : List Char :=
  replaceChar '`' ['\\', '`'] (replaceChar '\\' ['\\', '\\'] s)

/-- Modelled from JavaScript template-literal semantics: the cooked value of
a single-character escape sequence.  The modelled fragment covers the
single-character escapes; hex, unicode and octal escapes are outside the
fragment (they cannot occur in a body produced by `escapeChars`, which
doubles every backslash). -/
def cookedChar (c : Char) : Char :=
  if c = 'n' then '\n'
  else if c = 't' then '\t'
  else if c = 'r' then '\r'
  else if c = 'b' then '\x08'
  else if c = 'f' then '\x0C'
  else if c = 'v' then '\x0B'
  else if c = '0' then '\x00'
  else c

/-- Modelled from JavaScript template-literal semantics: split an
interpolation at its closing brace, returning the expression text and the
remainder of the template.  The modelled fragment scans to the first closing
brace (interpolated expressions containing braces or nested templates are
outside the fragment). -/
def splitInterp : List Char → Option (List Char × List Char)
  | [] => none
  | c :: rest =>
    if c = '}' then some ([], rest)
    else
      match splitInterp rest with
      | none => none
      | some p => some (c :: p.1, p.2)

/-- Modelled from JavaScript template-literal semantics: evaluation of a
template-literal body at call time.  Backslash escapes are cooked; a
backslash before a line terminator is a line continuation and cooks to
nothing (a carriage return followed by a line feed counting as one
terminator); a raw carriage return, or carriage return plus line feed, is
normalized to a single line feed (the cooked value of every line terminator
sequence); interpolations (a dollar sign directly followed by an opening
brace) are evaluated by the expression evaluator `oracle` (the JavaScript
expression semantics, kept abstract) and spliced in; all other characters
are literal.  The fuel argument bounds the recursion; `evalTemplate`
supplies enough fuel for the whole body, so the fuel-exhausted and
malformed cases (which the Function constructor rejects at parse time) are
never reached on bodies accepted at construction. -/
def evalTemplateAux (oracle : List Char → List Char) : Nat → List Char → List Char
  | _, [] => []
  | 0, _ :: _ => []
  | _ + 1, [c] =>
    if c = '\\' then []
    else if c = '\r' then ['\n']
    else [c]
  | fuel + 1, c :: c2 :: rest =>
    if c = '\\' then
      if c2 = '\r' then
        match rest with
        | '\n' :: rest2 => evalTemplateAux oracle fuel rest2
        | _ => evalTemplateAux oracle fuel rest
      else if c2 = '\n' then evalTemplateAux oracle fuel rest
      else cookedChar c2 :: evalTemplateAux oracle fuel rest
    else if c = '\r' then
      if c2 = '\n' then '\n' :: evalTemplateAux oracle fuel rest
      else '\n' :: evalTemplateAux oracle fuel (c2 :: rest)
    else if c = '$' then
      if c2 = '{' then
        match splitInterp rest with
        | none => oracle rest
        | some p => oracle p.1 ++ evalTemplateAux oracle fuel p.2
      else c :: evalTemplateAux oracle fuel (c2 :: rest)
    else c :: evalTemplateAux oracle fuel (c2 :: rest)

/-- Evaluation of a template-literal body, with enough fuel for the body. -/
def evalTemplate (oracle : List Char → List Char) (l : List Char) : List Char :=
  evalTemplateAux oracle l.length l

/-- Modelled from JavaScript: the parse-time check the Function constructor
performs on the generated body.  A template-literal body is rejected when a
backslash has nothing to escape, when a raw backtick would terminate the
template early, or when an interpolation is unterminated.  The contents of
an interpolation are not parsed as an expression here: bodies whose
interpolation holds an invalid expression are outside the modelled
fragment. -/
def templateWFAux : Nat → List Char → Bool
  | _, [] => true
  | 0, _ :: _ => false
  | _ + 1, [c] => !(c == '\\' || c == '`')
  | fuel + 1, c :: c2 :: rest =>
    if c = '\\' then templateWFAux fuel rest
    else if c = '`' then false
    else if c = '$' then
      if c2 = '{' then
        match splitInterp rest with
        | none => false
        | some p => templateWFAux fuel p.2
      else templateWFAux fuel (c2 :: rest)
    else templateWFAux fuel (c2 :: rest)

/-- Parse-time acceptance of a template-literal body. -/
def templateWF (l : List Char) : Bool :=
  templateWFAux l.length l

/-- Whether a character list contains a dollar sign directly followed by an
opening brace, which the template-literal evaluation treats as the start of
an interpolation. -/
def hasDollarBrace : List Char → Bool
  | [] => false
  | [_] => false
  | c :: c2 :: rest => (c == '$' && c2 == '{') || hasDollarBrace (c2 :: rest)

/-- Whether a character list is free of carriage returns; template cooking
normalizes a carriage return (or carriage return plus line feed) to a line
feed, so only strings free of them survive the round trip unchanged. -/
def crFree (s : List Char) : Bool :=
  s.all (fun c => c != '\r')

/-- Modelled from JavaScript: the restricted accessor properties caller and
arguments inherited from Function.prototype, whose setter throws, so a
strict-mode assignment under these names fails with a TypeError. -/
def restrictedName (n : String) : Bool :=
  n == "caller" || n == "arguments"

/-- The own-property table of a freshly constructed View: the function
object produced by `super(...)` carries the non-writable own properties
length (zero, the compiled body declares no parameters) and name (the
Function constructor names its result anonymous), and the constructor then
adds the writable _DATA property (src/index.js line 75). -/
def initProps (data : JSVal) : List (String × PropEntry) :=
  [("_DATA", PropEntry.pval true data),
   ("length", PropEntry.pval false (JSVal.vnum 0)),
   ("name", PropEntry.pval false (JSVal.vstr "anonymous".data))]

/-- The constructor of View (src/index.js lines 66 to 76).  With `none`
(JavaScript null) the compiled body throws a ReferenceError when invoked
(line 68).  Otherwise the default display is called immediately, with the
data as context; calling .replace on a non-string result raises a TypeError
here, at construction; the escaped string is embedded in a template-literal
body which the Function constructor parses (rejecting a malformed body).
Only after `super(...)` succeeds is the `_DATA` property set (line 75). -/
def View.construct (fn : Option (JSVal → JSVal)) (data : JSVal) : Except JSErr View :=
  match fn with
  | none => Except.ok ⟨Body.throwNoDefault, initProps data⟩
  | some f =>
    match f data with
    | JSVal.vstr s =>
      let b := escapeChars s
      if templateWF b then Except.ok ⟨Body.template b, initProps data⟩
      else Except.error JSErr.parseError
    | _ => Except.error JSErr.typeError

/-- Invoking the View itself with no selector: the compiled body runs.  The
null branch throws its ReferenceError with the message from src/index.js
line 68; otherwise the template-literal body is evaluated. -/
def View.invoke (oracle : List Char → List Char) (v : View) : Except JSErr (List Char) :=
  match v.body with
  | Body.throwNoDefault =>
    Except.error (JSErr.referenceError "This view does not have a default display.")
  | Body.template b => Except.ok (evalTemplate oracle b)

/-- Construction followed by a no-selector invocation. -/
def viewDefault (oracle : List Char → List Char) (fn : Option (JSVal → JSVal))
    (data : JSVal) : Except JSErr (List Char) :=
  match View.construct fn data with
  | Except.error e => Except.error e
  | Except.ok v => v.invoke oracle

/-- First-match lookup in a property table. -/
def lookupProp : List (String × PropEntry) → String → Option PropEntry
  | [], _ => none
  | (k, e) :: rest, n => if k = n then some e else lookupProp rest n

/-- Reading an own property of the View object. -/
def View.getProp (v : View) (k : String) : Option PropEntry :=
  lookupProp v.props k

/-- A property entry read as a plain JavaScript value: a data property is its
value, a stored display wrapper is a function value (opaque here). -/
def propToVal : PropEntry → JSVal
  | PropEntry.pval _ v => v
  | PropEntry.pdisp _ _ => JSVal.vfunMarker

/-- Resolution of the `this_arg` parameter of addDisplay: when omitted it
defaults to `this._DATA` (src/index.js line 84), read from the property
table at attachment time; a View with no `_DATA` property would yield
undefined. -/
def View.resolveCtx (v : View) (this_arg : Option JSVal) : JSVal :=
  match this_arg with
  | some c => c
  | none =>
    match v.getProp "_DATA" with
    | some e => propToVal e
    | none => JSVal.vundef

/-- Modelled from JavaScript strict-mode assignment semantics: whether the
assignment `this[n] = wrapper` performed by addDisplay succeeds on the
View.  It fails on a non-writable own data property (the name and length
properties every function instance carries) and on the restricted names
whose inherited setter throws; every other key, absent or writable, is
assignable (function objects are extensible, and the methods inherited from
View.prototype and Function.prototype under other names are writable). -/
def attachable (v : View) (n : String) : Bool :=
  !(restrictedName n) &&
    match v.getProp n with
    | some (PropEntry.pval false _) => false
    | _ => true

/-- addDisplay (src/index.js lines 84 to 89): the assignment
`this[fn.name] = function (...args) { return fn.call(this_arg, ...args) }`
writes one own property, named by the intrinsic name of `fn`, holding a
wrapper that calls `fn` with the resolved context and the forwarded
arguments.  No validation of the name and no check of the returned value is
performed by the source; however class code is strict mode, so the
assignment itself throws a TypeError when the target property is not
assignable (name, length, and the restricted names), writing nothing.
Otherwise the wrapper is stored and the method returns `this`. -/
def View.addDisplay (v : View) (fn : JSFun) (this_arg : Option JSVal) : Except JSErr View :=
  if attachable v fn.name then
    Except.ok ⟨v.body, (fn.name, PropEntry.pdisp fn (v.resolveCtx this_arg)) :: v.props⟩
  else Except.error JSErr.typeError

/-- Invoking a named display `v.n(...args)`: the own property `n` is looked
up; a stored wrapper calls its renderer with the captured context and the
arguments; a plain value or an absent property is not callable, a TypeError.
The modelled fragment covers own properties only (names of properties
inherited from Function.prototype or View.prototype are outside it). -/
def View.invokeNamed (v : View) (n : String) (args : List JSVal) : Except JSErr JSVal :=
  match v.getProp n with
  | some (PropEntry.pdisp f ctx) => Except.ok (f.call ctx args)
  | some (PropEntry.pval _ _) => Except.error JSErr.typeError
  | none => Except.error JSErr.typeError

/-- The digits of a decimal numeral read as a natural number. -/
def charsToNat (l : List Char) : Nat :=
  l.foldl (fun n c => 10 * n + (c.toNat - 48)) 0

/-- Modelled from JavaScript expression semantics, the concrete fragment of
the interpolation oracle used on concrete inputs: a decimal numeral
evaluates to the decimal numeral of its value (so a leading zero is
dropped), any other expression is outside the fragment and left as is. -/
def jsExprEval (l : List Char) : List Char :=
  if l.isEmpty then l
  else if l.all Char.isDigit then Nat.toDigits 10 (charsToNat l)
  else l

-- Sanity checks on concrete inputs (kept as examples, they compile to proofs).
example : escapeChars ['a', '\\', '`'] = ['a', '\\', '\\', '\\', '`'] := by decide
example : evalTemplate jsExprEval (escapeChars ['a', '\\', '`']) = ['a', '\\', '`'] := by decide
example : evalTemplate jsExprEval ['$', '{', '0', '}'] = ['0'] := by decide
example : evalTemplate jsExprEval ['a', '\r'] = ['a', '\n'] := by decide
example : evalTemplate jsExprEval ['a', '\r', '\n', 'b'] = ['a', '\n', 'b'] := by decide
example : templateWF ['$', '{'] = false := by decide
example : viewDefault jsExprEval none (JSVal.vnum 0)
    = Except.error (JSErr.referenceError "This view does not have a default display.") := by
  rfl

/-! ### Helper lemmas about escaping and template evaluation -/

theorem replaceChar_append (c : Char) (r a b : List Char) :
    replaceChar c r (a ++ b) = replaceChar c r a ++ replaceChar c r b := by
  induction a with
  | nil => rfl
  | cons x xs ih => simp [replaceChar, ih]

theorem escapeChars_nil : escapeChars [] = [] := rfl

theorem escapeChars_cons (c : Char) (s : List Char) :
    escapeChars (c :: s)
      = (if c = '\\' then ['\\', '\\'] else if c = '`' then ['\\', '`'] else [c])
        ++ escapeChars s := by
  by_cases h1 : c = '\\'
  · subst h1; simp [escapeChars, replaceChar, replaceChar_append]
  · by_cases h2 : c = '`'
    · subst h2; simp [escapeChars, replaceChar, replaceChar_append]
    · simp [escapeChars, replaceChar, replaceChar_append, h1, h2]

theorem hasDollarBrace_cons_cons (c c2 : Char) (rest : List Char) :
    hasDollarBrace (c :: c2 :: rest)
      = ((c == '$' && c2 == '{') || hasDollarBrace (c2 :: rest)) := rfl

theorem splitInterp_append (content rest : List Char)
    (h : content.all (fun x => x != '}') = true) :
    splitInterp (content ++ '}' :: rest) = some (content, rest) := by
  induction content with
  | nil => simp [splitInterp]
  | cons c t ih =>
    simp only [List.all_cons, Bool.and_eq_true, bne_iff_ne] at h
    simp [splitInterp, h.1, ih h.2]

theorem splitInterp_length : ∀ (l : List Char) (p : List Char × List Char),
    splitInterp l = some p → p.2.length < l.length := by
  intro l
  induction l with
  | nil => intro p h; simp [splitInterp] at h
  | cons c rest ih =>
    intro p h
    by_cases hc : c = '}'
    · subst hc
      simp [splitInterp] at h
      subst h
      simp
    · simp only [splitInterp, if_neg hc] at h
      cases hsp : splitInterp rest with
      | none => rw [hsp] at h; exact absurd h (by simp)
      | some q =>
        rw [hsp] at h
        simp at h
        have := ih q hsp
        subst h
        simp only [List.length_cons]
        omega

theorem cookedChar_backslash : cookedChar '\\' = '\\' := by decide

theorem cookedChar_backtick : cookedChar '`' = '`' := by decide

theorem escapeChars_cons_bs (s : List Char) :
    escapeChars ('\\' :: s) = '\\' :: '\\' :: escapeChars s := by
  rw [escapeChars_cons]; simp

theorem escapeChars_cons_bt (s : List Char) :
    escapeChars ('`' :: s) = '\\' :: '`' :: escapeChars s := by
  rw [escapeChars_cons, if_neg (by decide), if_pos rfl]; simp

theorem escapeChars_cons_other (c : Char) (s : List Char) (h1 : c ≠ '\\') (h2 : c ≠ '`') :
    escapeChars (c :: s) = c :: escapeChars s := by
  rw [escapeChars_cons, if_neg h1, if_neg h2]; simp

theorem escapeChars_cons_shape (c2 : Char) (t : List Char) :
    ∃ d rest, escapeChars (c2 :: t) = d :: rest ∧ (c2 ≠ '{' → d ≠ '{') := by
  by_cases hb : c2 = '\\'
  · subst hb; rw [escapeChars_cons_bs]; exact ⟨'\\', _, rfl, fun _ => by decide⟩
  · by_cases ht : c2 = '`'
    · subst ht; rw [escapeChars_cons_bt]; exact ⟨'\\', _, rfl, fun _ => by decide⟩
    · rw [escapeChars_cons_other c2 t hb ht]; exact ⟨c2, _, rfl, fun h => h⟩

theorem hasDollarBrace_tail (c : Char) (s : List Char) (h : hasDollarBrace (c :: s) = false) :
    hasDollarBrace s = false := by
  cases s with
  | nil => rfl
  | cons c2 t =>
    rw [hasDollarBrace_cons_cons] at h
    simp only [Bool.or_eq_false_iff] at h
    exact h.2

theorem crFree_cons (c : Char) (s : List Char) (h : crFree (c :: s) = true) :
    c ≠ '\r' ∧ crFree s = true := by
  simp only [crFree, List.all_cons, Bool.and_eq_true, bne_iff_ne] at h
  exact ⟨h.1, h.2⟩

theorem evalAux_nil (oracle : List Char → List Char) (fuel : Nat) :
    evalTemplateAux oracle fuel [] = [] := by
  cases fuel <;> rfl

theorem evalAux_step_esc (oracle : List Char → List Char) (fuel : Nat) (c2 : Char)
    (rest : List Char) (hr : c2 ≠ '\r') (hn : c2 ≠ '\n') :
    evalTemplateAux oracle (fuel + 1) ('\\' :: c2 :: rest)
      = cookedChar c2 :: evalTemplateAux oracle fuel rest := by
  simp [evalTemplateAux, hr, hn]

theorem evalAux_step_cont_crlf (oracle : List Char → List Char) (fuel : Nat)
    (rest2 : List Char) :
    evalTemplateAux oracle (fuel + 1) ('\\' :: '\r' :: '\n' :: rest2)
      = evalTemplateAux oracle fuel rest2 := by
  simp [evalTemplateAux]

theorem evalAux_step_cont_cr_nil (oracle : List Char → List Char) (fuel : Nat) :
    evalTemplateAux oracle (fuel + 1) ['\\', '\r'] = [] := by
  simp [evalTemplateAux, evalAux_nil]

theorem evalAux_step_cont_cr (oracle : List Char → List Char) (fuel : Nat) (c3 : Char)
    (r3 : List Char) (h : c3 ≠ '\n') :
    evalTemplateAux oracle (fuel + 1) ('\\' :: '\r' :: c3 :: r3)
      = evalTemplateAux oracle fuel (c3 :: r3) := by
  show (if ('\\' : Char) = '\\' then
      if ('\r' : Char) = '\r' then
        match c3 :: r3 with
        | '\n' :: rest2 => evalTemplateAux oracle fuel rest2
        | _ => evalTemplateAux oracle fuel (c3 :: r3)
      else if ('\r' : Char) = '\n' then evalTemplateAux oracle fuel (c3 :: r3)
      else cookedChar '\r' :: evalTemplateAux oracle fuel (c3 :: r3)
    else if ('\\' : Char) = '\r' then
      if c3 = '\n' then '\n' :: evalTemplateAux oracle fuel (c3 :: r3)
      else '\n' :: evalTemplateAux oracle fuel ('\r' :: c3 :: r3)
    else if ('\\' : Char) = '$' then
      if ('\r' : Char) = '{' then
        match splitInterp (c3 :: r3) with
        | none => oracle (c3 :: r3)
        | some p => oracle p.1 ++ evalTemplateAux oracle fuel p.2
      else '\\' :: evalTemplateAux oracle fuel ('\r' :: c3 :: r3)
    else '\\' :: evalTemplateAux oracle fuel ('\r' :: c3 :: r3))
    = evalTemplateAux oracle fuel (c3 :: r3)
  rw [if_pos rfl, if_pos rfl]
  split
  · rename_i rest2 heq
    exfalso
    injection heq with hh ht
    exact h hh
  · rfl

theorem evalAux_step_cont_lf (oracle : List Char → List Char) (fuel : Nat)
    (rest : List Char) :
    evalTemplateAux oracle (fuel + 1) ('\\' :: '\n' :: rest)
      = evalTemplateAux oracle fuel rest := by
  simp [evalTemplateAux]

theorem evalAux_step_crlf (oracle : List Char → List Char) (fuel : Nat)
    (rest : List Char) :
    evalTemplateAux oracle (fuel + 1) ('\r' :: '\n' :: rest)
      = '\n' :: evalTemplateAux oracle fuel rest := by
  simp [evalTemplateAux]

theorem evalAux_step_cr (oracle : List Char → List Char) (fuel : Nat) (c2 : Char)
    (rest : List Char) (h : c2 ≠ '\n') :
    evalTemplateAux oracle (fuel + 1) ('\r' :: c2 :: rest)
      = '\n' :: evalTemplateAux oracle fuel (c2 :: rest) := by
  simp [evalTemplateAux, h]

theorem evalAux_step_other (oracle : List Char → List Char) (fuel : Nat) (c c2 : Char)
    (rest : List Char) (h1 : c ≠ '\\') (h2 : c ≠ '$') (h3 : c ≠ '\r') :
    evalTemplateAux oracle (fuel + 1) (c :: c2 :: rest)
      = c :: evalTemplateAux oracle fuel (c2 :: rest) := by
  simp [evalTemplateAux, h1, h2, h3]

theorem evalAux_step_dollar_nobrace (oracle : List Char → List Char) (fuel : Nat)
    (c2 : Char) (rest : List Char) (h : c2 ≠ '{') :
    evalTemplateAux oracle (fuel + 1) ('$' :: c2 :: rest)
      = '$' :: evalTemplateAux oracle fuel (c2 :: rest) := by
  simp [evalTemplateAux, h]

theorem evalAux_step_interp (oracle : List Char → List Char) (fuel : Nat)
    (rest content tail : List Char) (h : splitInterp rest = some (content, tail)) :
    evalTemplateAux oracle (fuel + 1) ('$' :: '{' :: rest)
      = oracle content ++ evalTemplateAux oracle fuel tail := by
  simp [evalTemplateAux, h]

theorem evalAux_step_interp_none (oracle : List Char → List Char) (fuel : Nat)
    (rest : List Char) (h : splitInterp rest = none) :
    evalTemplateAux oracle (fuel + 1) ('$' :: '{' :: rest) = oracle rest := by
  simp [evalTemplateAux, h]

theorem evalAux_single (oracle : List Char → List Char) (fuel : Nat) (c : Char)
    (h1 : c ≠ '\\') (h2 : c ≠ '\r') :
    evalTemplateAux oracle (fuel + 1) [c] = [c] := by
  simp [evalTemplateAux, h1, h2]

theorem evalTemplateAux_escape (oracle : List Char → List Char) :
    ∀ (s : List Char) (fuel : Nat), (escapeChars s).length ≤ fuel →
      hasDollarBrace s = false → crFree s = true →
      evalTemplateAux oracle fuel (escapeChars s) = s := by
  intro s
  induction s with
  | nil => intro fuel _ _ _; rw [escapeChars_nil]; exact evalAux_nil oracle fuel
  | cons c s' ih =>
    intro fuel hlen hdb hcr
    have hdb' : hasDollarBrace s' = false := hasDollarBrace_tail c s' hdb
    obtain ⟨hcrc, hcr'⟩ := crFree_cons c s' hcr
    by_cases h1 : c = '\\'
    · subst h1
      rw [escapeChars_cons_bs] at hlen ⊢
      obtain ⟨m, rfl⟩ : ∃ m, fuel = m + 1 := by
        cases fuel
        · simp at hlen
        · exact ⟨_, rfl⟩
      rw [evalAux_step_esc oracle m '\\' _ (by decide) (by decide), cookedChar_backslash]
      have hm : (escapeChars s').length ≤ m := by simp at hlen; omega
      rw [ih m hm hdb' hcr']
    · by_cases h2 : c = '`'
      · subst h2
        rw [escapeChars_cons_bt] at hlen ⊢
        obtain ⟨m, rfl⟩ : ∃ m, fuel = m + 1 := by
          cases fuel
          · simp at hlen
          · exact ⟨_, rfl⟩
        rw [evalAux_step_esc oracle m '`' _ (by decide) (by decide), cookedChar_backtick]
        have hm : (escapeChars s').length ≤ m := by simp at hlen; omega
        rw [ih m hm hdb' hcr']
      · rw [escapeChars_cons_other c s' h1 h2] at hlen ⊢
        obtain ⟨m, rfl⟩ : ∃ m, fuel = m + 1 := by
          cases fuel
          · simp at hlen
          · exact ⟨_, rfl⟩
        by_cases h3 : c = '$'
        · subst h3
          cases s' with
          | nil =>
            rw [escapeChars_nil]
            exact evalAux_single oracle m '$' (by decide) (by decide)
          | cons c2 t =>
            have hc2 : c2 ≠ '{' := by
              rw [hasDollarBrace_cons_cons] at hdb
              simp only [Bool.or_eq_false_iff, Bool.and_eq_false_iff] at hdb
              rcases hdb.1 with h | h
              · exact absurd h (by decide)
              · exact fun hq => by rw [hq] at h; exact absurd h (by decide)
            obtain ⟨d, rest, hE, hd⟩ := escapeChars_cons_shape c2 t
            rw [hE] at hlen ⊢
            rw [evalAux_step_dollar_nobrace oracle m d rest (hd hc2), ← hE]
            have hm : (escapeChars (c2 :: t)).length ≤ m := by
              rw [hE]; simp at hlen ⊢; omega
            rw [ih m hm hdb' hcr']
        · cases s' with
          | nil =>
            rw [escapeChars_nil]
            exact evalAux_single oracle m c h1 hcrc
          | cons c2 t =>
            obtain ⟨d, rest, hE, _⟩ := escapeChars_cons_shape c2 t
            rw [hE]
            rw [evalAux_step_other oracle m c d rest h1 h3 hcrc, ← hE]
            have hm : (escapeChars (c2 :: t)).length ≤ m := by
              rw [hE] at hlen; rw [hE]; simp at hlen ⊢; omega
            rw [ih m hm hdb' hcr']

theorem wfAux_step_bs (fuel : Nat) (e : Char) (rest : List Char) :
    templateWFAux (fuel + 1) ('\\' :: e :: rest) = templateWFAux fuel rest := by
  simp [templateWFAux]

theorem wfAux_step_other (fuel : Nat) (c c2 : Char) (rest : List Char)
    (h1 : c ≠ '\\') (h2 : c ≠ '`') (h3 : c ≠ '$') :
    templateWFAux (fuel + 1) (c :: c2 :: rest) = templateWFAux fuel (c2 :: rest) := by
  simp [templateWFAux, h1, h2, h3]

theorem wfAux_step_dollar_nobrace (fuel : Nat) (c2 : Char) (rest : List Char)
    (h : c2 ≠ '{') :
    templateWFAux (fuel + 1) ('$' :: c2 :: rest) = templateWFAux fuel (c2 :: rest) := by
  simp [templateWFAux, h]

theorem wfAux_step_interp (fuel : Nat) (rest content tail : List Char)
    (h : splitInterp rest = some (content, tail)) :
    templateWFAux (fuel + 1) ('$' :: '{' :: rest) = templateWFAux fuel tail := by
  simp [templateWFAux, h]

theorem wfAux_single (fuel : Nat) (c : Char) (h1 : c ≠ '\\') (h2 : c ≠ '`') :
    templateWFAux (fuel + 1) [c] = true := by
  simp [templateWFAux, h1, h2]

theorem templateWFAux_escape :
    ∀ (s : List Char) (fuel : Nat), (escapeChars s).length ≤ fuel →
      hasDollarBrace s = false → templateWFAux fuel (escapeChars s) = true := by
  intro s
  induction s with
  | nil => intro fuel _ _; cases fuel <;> rfl
  | cons c s' ih =>
    intro fuel hlen hdb
    have hdb' : hasDollarBrace s' = false := hasDollarBrace_tail c s' hdb
    by_cases h1 : c = '\\'
    · subst h1
      rw [escapeChars_cons_bs] at hlen ⊢
      obtain ⟨m, rfl⟩ : ∃ m, fuel = m + 1 := by
        cases fuel
        · simp at hlen
        · exact ⟨_, rfl⟩
      rw [wfAux_step_bs]
      have hm : (escapeChars s').length ≤ m := by simp at hlen; omega
      exact ih m hm hdb'
    · by_cases h2 : c = '`'
      · subst h2
        rw [escapeChars_cons_bt] at hlen ⊢
        obtain ⟨m, rfl⟩ : ∃ m, fuel = m + 1 := by
          cases fuel
          · simp at hlen
          · exact ⟨_, rfl⟩
        rw [wfAux_step_bs]
        have hm : (escapeChars s').length ≤ m := by simp at hlen; omega
        exact ih m hm hdb'
      · rw [escapeChars_cons_other c s' h1 h2] at hlen ⊢
        obtain ⟨m, rfl⟩ : ∃ m, fuel = m + 1 := by
          cases fuel
          · simp at hlen
          · exact ⟨_, rfl⟩
        by_cases h3 : c = '$'
        · subst h3
          cases s' with
          | nil =>
            rw [escapeChars_nil]
            exact wfAux_single m '$' (by decide) (by decide)
          | cons c2 t =>
            have hc2 : c2 ≠ '{' := by
              rw [hasDollarBrace_cons_cons] at hdb
              simp only [Bool.or_eq_false_iff, Bool.and_eq_false_iff] at hdb
              rcases hdb.1 with h | h
              · exact absurd h (by decide)
              · exact fun hq => by rw [hq] at h; exact absurd h (by decide)
            obtain ⟨d, rest, hE, hd⟩ := escapeChars_cons_shape c2 t
            rw [hE] at hlen ⊢
            rw [wfAux_step_dollar_nobrace m d rest (hd hc2), ← hE]
            have hm : (escapeChars (c2 :: t)).length ≤ m := by
              rw [hE]; simp at hlen ⊢; omega
            exact ih m hm hdb'
        · cases s' with
          | nil =>
            rw [escapeChars_nil]
            exact wfAux_single m c h1 h2
          | cons c2 t =>
            obtain ⟨d, rest, hE, _⟩ := escapeChars_cons_shape c2 t
            rw [hE]
            rw [wfAux_step_other m c d rest h1 h2 h3, ← hE]
            have hm : (escapeChars (c2 :: t)).length ≤ m := by
              rw [hE] at hlen; rw [hE]; simp at hlen ⊢; omega
            exact ih m hm hdb'

theorem evalTemplate_escape (oracle : List Char → List Char) (s : List Char)
    (h : hasDollarBrace s = false) (hcr : crFree s = true) :
    evalTemplate oracle (escapeChars s) = s :=
  evalTemplateAux_escape oracle s _ le_rfl h hcr

theorem templateWF_escape (s : List Char) (h : hasDollarBrace s = false) :
    templateWF (escapeChars s) = true :=
  templateWFAux_escape s _ le_rfl h

/-- Shared lemma: construction with a default display whose evaluation is a
string free of interpolation starts succeeds, compiling the escaped string
into the template body. -/
theorem construct_some_str (f : JSVal → JSVal) (d : JSVal) (s : List Char)
    (h1 : f d = JSVal.vstr s) (h2 : hasDollarBrace s = false) :
    View.construct (some f) d
      = Except.ok ⟨Body.template (escapeChars s), initProps d⟩ := by
  simp only [View.construct]
  rw [h1]
  simp only [templateWF_escape s h2, if_true]

/-- Shared lemma: constructing with a default display whose result is a
string free of interpolation starts and carriage returns, then invoking
with no selector, returns exactly that string. -/
theorem viewDefault_no_interp (oracle : List Char → List Char) (f : JSVal → JSVal)
    (d : JSVal) (s : List Char) (h1 : f d = JSVal.vstr s)
    (h2 : hasDollarBrace s = false) (hcr : crFree s = true) :
    viewDefault oracle (some f) d = Except.ok s := by
  unfold viewDefault
  rw [construct_some_str f d s h1 h2]
  show Except.ok (evalTemplate oracle (escapeChars s)) = Except.ok s
  rw [evalTemplate_escape oracle s h2 hcr]

theorem evalAux_fuel_irrel (oracle : List Char → List Char) :
    ∀ (fuel1 : Nat) (l : List Char) (fuel2 : Nat), l.length ≤ fuel1 → l.length ≤ fuel2 →
      evalTemplateAux oracle fuel1 l = evalTemplateAux oracle fuel2 l := by
  intro fuel1
  induction fuel1 with
  | zero =>
    intro l fuel2 h1 _
    have hl : l = [] := List.eq_nil_of_length_eq_zero (Nat.le_zero.mp h1)
    subst hl
    rw [evalAux_nil, evalAux_nil]
  | succ m ih =>
    intro l fuel2 h1 h2
    cases l with
    | nil => rw [evalAux_nil, evalAux_nil]
    | cons c rest0 =>
      obtain ⟨k, rfl⟩ : ∃ k, fuel2 = k + 1 := by
        cases fuel2
        · simp at h2
        · exact ⟨_, rfl⟩
      cases rest0 with
      | nil => rfl
      | cons c2 rest =>
        simp only [List.length_cons] at h1 h2
        by_cases hb : c = '\\'
        · subst hb
          by_cases hc2r : c2 = '\r'
          · subst hc2r
            cases rest with
            | nil =>
              rw [evalAux_step_cont_cr_nil, evalAux_step_cont_cr_nil]
            | cons c3 r3 =>
              by_cases hc3 : c3 = '\n'
              · subst hc3
                rw [evalAux_step_cont_crlf, evalAux_step_cont_crlf]
                exact ih r3 k (by simp at h1 ⊢; omega) (by simp at h2 ⊢; omega)
              · rw [evalAux_step_cont_cr oracle m c3 r3 hc3,
                    evalAux_step_cont_cr oracle k c3 r3 hc3]
                exact ih (c3 :: r3) k (by simp at h1 ⊢; omega) (by simp at h2 ⊢; omega)
          · by_cases hc2n : c2 = '\n'
            · subst hc2n
              rw [evalAux_step_cont_lf, evalAux_step_cont_lf]
              exact ih rest k (by omega) (by omega)
            · rw [evalAux_step_esc oracle m c2 rest hc2r hc2n,
                  evalAux_step_esc oracle k c2 rest hc2r hc2n]
              rw [ih rest k (by omega) (by omega)]
        · by_cases hcr : c = '\r'
          · subst hcr
            by_cases hn : c2 = '\n'
            · subst hn
              rw [evalAux_step_crlf, evalAux_step_crlf]
              rw [ih rest k (by omega) (by omega)]
            · rw [evalAux_step_cr oracle m c2 rest hn, evalAux_step_cr oracle k c2 rest hn]
              rw [ih (c2 :: rest) k (by simp; omega) (by simp; omega)]
          · by_cases hd : c = '$'
            · subst hd
              by_cases hbr : c2 = '{'
              · subst hbr
                cases hsp : splitInterp rest with
                | none =>
                  rw [evalAux_step_interp_none oracle m rest hsp,
                      evalAux_step_interp_none oracle k rest hsp]
                | some p =>
                  obtain ⟨content, tail⟩ := p
                  rw [evalAux_step_interp oracle m rest content tail hsp,
                      evalAux_step_interp oracle k rest content tail hsp]
                  have hlt := splitInterp_length rest (content, tail) hsp
                  rw [ih tail k (by simp at hlt ⊢; omega) (by simp at hlt ⊢; omega)]
              · rw [evalAux_step_dollar_nobrace oracle m c2 rest hbr,
                    evalAux_step_dollar_nobrace oracle k c2 rest hbr]
                rw [ih (c2 :: rest) k (by simp; omega) (by simp; omega)]
            · rw [evalAux_step_other oracle m c c2 rest hb hd hcr,
                  evalAux_step_other oracle k c c2 rest hb hd hcr]
              rw [ih (c2 :: rest) k (by simp; omega) (by simp; omega)]

/-- Shared lemma: a template-literal body that starts with an interpolation
evaluates to the oracle value of the interpolated expression, spliced before
the evaluation of the remainder. -/
theorem evalTemplate_interp (oracle : List Char → List Char) (content rest : List Char)
    (h : content.all (fun x => x != '}') = true) :
    evalTemplate oracle ('$' :: '{' :: (content ++ '}' :: rest))
      = oracle content ++ evalTemplate oracle rest := by
  have hsp := splitInterp_append content rest h
  unfold evalTemplate
  simp only [List.length_cons]
  rw [evalAux_step_interp oracle _ _ content rest hsp]
  congr 1
  exact evalAux_fuel_irrel oracle _ rest _ (by simp; omega) le_rfl

/-- Shared lemma: a successful addDisplay produced exactly the View with the
wrapper entry consed onto the property table. -/
theorem addDisplay_ok_elim (v v1 : View) (fn : JSFun) (t : Option JSVal)
    (h : v.addDisplay fn t = Except.ok v1) :
    v1 = ⟨v.body, (fn.name, PropEntry.pdisp fn (v.resolveCtx t)) :: v.props⟩ := by
  simp only [View.addDisplay] at h
  split at h
  · injection h with h1
    exact h1.symm
  · exact absurd h (by simp)

/-- Shared lemma: on an assignable name, addDisplay succeeds and returns the
View extended with the wrapper entry. -/
theorem addDisplay_ok_of_attachable (v : View) (fn : JSFun) (t : Option JSVal)
    (h : attachable v fn.name = true) :
    v.addDisplay fn t
      = Except.ok ⟨v.body, (fn.name, PropEntry.pdisp fn (v.resolveCtx t)) :: v.props⟩ := by
  simp [View.addDisplay, h]

/-! ### Concrete values used by witnesses and counterexamples -/

/-- A sample data value. -/
def sampleData : JSVal := JSVal.vnum 0

/-- A View as constructed by `new View(null, 0)`. -/
def sampleView : View := ⟨Body.throwNoDefault, initProps sampleData⟩

/-- A named display used by witnesses: returns its own context. -/
def shoutRenderer : JSFun := ⟨"shout", fun c _ => c⟩

/-- The View after attaching shoutRenderer to sampleView with the default
context. -/
def shoutAttached : View :=
  ⟨Body.throwNoDefault, ("shout", PropEntry.pdisp shoutRenderer sampleData) :: initProps sampleData⟩

/-- The View after attaching shoutRenderer to sampleView with an overriding
context. -/
def shoutAttachedOther : View :=
  ⟨Body.throwNoDefault, ("shout", PropEntry.pdisp shoutRenderer (JSVal.vnum 5)) :: initProps sampleData⟩

/-- Two displays sharing the name f, distinguishable by their results. -/
def rend1 : JSFun := ⟨"f", fun _ _ => JSVal.vnum 1⟩

/-- The second display named f. -/
def rend2 : JSFun := ⟨"f", fun _ _ => JSVal.vnum 2⟩

/-- The View after attaching rend1 to sampleView. -/
def fAttached1 : View :=
  ⟨Body.throwNoDefault, ("f", PropEntry.pdisp rend1 sampleData) :: initProps sampleData⟩

/-- The View after attaching rend2 on top of rend1. -/
def fAttached2 : View :=
  ⟨Body.throwNoDefault,
   ("f", PropEntry.pdisp rend2 sampleData)
     :: ("f", PropEntry.pdisp rend1 sampleData) :: initProps sampleData⟩

/-- An anonymous function expression: its intrinsic name is empty. -/
def anonRenderer : JSFun := ⟨"", fun _ _ => JSVal.vstr ['x']⟩

/-- The View after attaching anonRenderer to sampleView. -/
def anonAttached : View :=
  ⟨Body.throwNoDefault, ("", PropEntry.pdisp anonRenderer sampleData) :: initProps sampleData⟩

/-- A named display returning a non-string value. -/
def badResultRenderer : JSFun := ⟨"bad", fun _ _ => JSVal.vother 7⟩

/-- The View after attaching badResultRenderer to sampleView. -/
def badAttached : View :=
  ⟨Body.throwNoDefault, ("bad", PropEntry.pdisp badResultRenderer sampleData) :: initProps sampleData⟩

/-- A display whose intrinsic name collides with the _DATA property. -/
def dataClobberRenderer : JSFun := ⟨"_DATA", fun _ _ => JSVal.vstr ['x']⟩

/-- The View after attaching dataClobberRenderer to sampleView: its _DATA
property now holds the wrapper, not the data. -/
def clobberedView : View :=
  ⟨Body.throwNoDefault, ("_DATA", PropEntry.pdisp dataClobberRenderer sampleData) :: initProps sampleData⟩

/-- A display whose intrinsic name collides with the non-writable name
property of the function instance. -/
def nameClobberRenderer : JSFun := ⟨"name", fun _ _ => JSVal.vstr ['x']⟩

/-- A display whose intrinsic name collides with the non-writable length
property of the function instance. -/
def lengthClobberRenderer : JSFun := ⟨"length", fun _ _ => JSVal.vnum 1⟩

/-- A default display returning a non-string value. -/
def nonStringDefault : JSVal → JSVal := fun _ => JSVal.vother 0

/-- A View as produced by constructing with a default display returning the
one-character string a. -/
def constructedView : View := ⟨Body.template ['a'], initProps sampleData⟩

/-- A default display returning a string that is an interpolation of the
identifier r (standing for an expression that reads ambient state). -/
def interpDefault : JSVal → JSVal := fun _ => JSVal.vstr ['$', '{', 'r', '}']

/-- The View produced from interpDefault: its body holds the interpolation
verbatim. -/
def interpView : View := ⟨Body.template ['$', '{', 'r', '}'], initProps sampleData⟩

/-- The expression evaluator in an ambient state where the interpolated
expression evaluates to the string zero. -/
def oracleA : List Char → List Char := fun _ => ['0']

/-- The expression evaluator in an ambient state where the interpolated
expression evaluates to the string one. -/
def oracleB : List Char → List Char := fun _ => ['1']

/-! ### Claim theorems -/

/-- C1 counterexample: the default display returns the four-character string
dollar, open brace, zero, close brace, yet the no-selector invocation
returns the one-character string zero, because the constructor escapes only
backslashes and backticks and the embedded dollar-brace is evaluated as a
template interpolation at invocation time. -/
theorem C1_counterexample :
    viewDefault jsExprEval (some (fun _ => JSVal.vstr ['$', '{', '0', '}'])) (JSVal.vnum 0)
        = Except.ok ['0']
      ∧ (['0'] : List Char) ≠ ['$', '{', '0', '}'] :=
  ⟨rfl, by decide⟩

/-- C1 (amended): for every data value d and every rendering function f
whose result on d is a string containing no dollar-brace and no carriage
return, invoking the View constructed as View(f, d) with no selector
returns exactly that string; a dollar-brace in the string is instead
evaluated as a template interpolation at invocation, and a carriage return
(alone or followed by a line feed) is normalized to a line feed by
template cooking, so in those cases the result can differ. -/
theorem C1_default_invocation_exact (oracle : List Char → List Char) (f : JSVal → JSVal)
    (d : JSVal) (s : List Char) (h1 : f d = JSVal.vstr s)
    (h2 : hasDollarBrace s = false) (h3 : crFree s = true) :
    viewDefault oracle (some f) d = Except.ok s :=
  viewDefault_no_interp oracle f d s h1 h2 h3

/-- C1 witness: the amended theorem at a concrete renderer returning ab. -/
theorem C1_default_invocation_exact_witness :
    viewDefault jsExprEval (some (fun _ => JSVal.vstr ['a', 'b'])) (JSVal.vnum 0)
      = Except.ok ['a', 'b'] :=
  C1_default_invocation_exact jsExprEval (fun _ => JSVal.vstr ['a', 'b']) (JSVal.vnum 0)
    ['a', 'b'] rfl (by decide) (by decide)

/-- C2 counterexample: construction with a default display returning a
non-string raises a TypeError at construction time (the escape step calls
replace on the returned value), refuting both that construction never raises
and that the default display is not evaluated during construction. -/
theorem C2_counterexample :
    View.construct (some nonStringDefault) (JSVal.vnum 0) = Except.error JSErr.typeError := rfl

/-- C2 (amended): construction evaluates the default renderer eagerly,
during construction, and raises a TypeError there when the result of fn is
not a string; only the no-default case is deferred: View(null, d) constructs
without error and the missing-default ReferenceError is raised at invocation
time. -/
theorem C2_construction_eager (f : JSVal → JSVal) (d e : JSVal)
    (oracle : List Char → List Char) (h : ∀ s, f d ≠ JSVal.vstr s) :
    View.construct (some f) d = Except.error JSErr.typeError
      ∧ View.construct none e = Except.ok ⟨Body.throwNoDefault, initProps e⟩
      ∧ viewDefault oracle none e
          = Except.error (JSErr.referenceError "This view does not have a default display.") := by
  refine ⟨?_, rfl, rfl⟩
  cases hfd : f d with
  | vstr s => exact absurd hfd (h s)
  | vnum n => simp only [View.construct, hfd]
  | vbool b => simp only [View.construct, hfd]
  | vundef => simp only [View.construct, hfd]
  | vfunMarker => simp only [View.construct, hfd]
  | vother t => simp only [View.construct, hfd]

/-- C2 witness: the amended theorem at a concrete non-string default. -/
theorem C2_construction_eager_witness :
    View.construct (some nonStringDefault) (JSVal.vnum 0) = Except.error JSErr.typeError
      ∧ View.construct none (JSVal.vnum 1)
          = Except.ok ⟨Body.throwNoDefault, initProps (JSVal.vnum 1)⟩
      ∧ viewDefault jsExprEval none (JSVal.vnum 1)
          = Except.error (JSErr.referenceError "This view does not have a default display.") :=
  C2_construction_eager nonStringDefault (JSVal.vnum 0) (JSVal.vnum 1) jsExprEval
    (fun _ h => JSVal.noConfusion h)

/-- C3: for every data value d, invoking the View constructed as
View(null, d) with no selector raises the ReferenceError with the message
from the source (the missing-default-display error); construction itself
succeeds and the invocation never falls back to a string conversion of d. -/
theorem C3_null_default_raises (oracle : List Char → List Char) (d : JSVal) :
    viewDefault oracle none d
      = Except.error (JSErr.referenceError "This view does not have a default display.") := rfl

/-- C4 counterexample: addDisplay with a function named name (the
non-writable own property of the function instance) does not register
anything: the strict-mode assignment throws a TypeError, so there is no
invocable display afterwards, refuting the claim for that named function. -/
theorem C4_counterexample :
    sampleView.addDisplay nameClobberRenderer none = Except.error JSErr.typeError := rfl

/-- C4 (amended): whenever v.addDisplay(g) succeeds, invoking the display
named by g with an argument list evaluates g with context equal to the
bound data of v (the value of the _DATA property) and exactly those
arguments, and whenever v.addDisplay(g, other) succeeds the same invocation
evaluates g with context other instead; at the non-writable or restricted
names (name, length, caller, arguments) addDisplay throws a TypeError and
registers nothing. -/
theorem C4_addDisplay_context (v v1 v2 : View) (g : JSFun) (other d : JSVal)
    (args : List JSVal)
    (h : v.getProp "_DATA" = some (PropEntry.pval true d))
    (h1 : v.addDisplay g none = Except.ok v1)
    (h2 : v.addDisplay g (some other) = Except.ok v2) :
    v1.invokeNamed g.name args = Except.ok (g.call d args)
      ∧ v2.invokeNamed g.name args = Except.ok (g.call other args) := by
  have e1 := addDisplay_ok_elim v v1 g none h1
  have e2 := addDisplay_ok_elim v v2 g (some other) h2
  subst e1
  subst e2
  have h9 : lookupProp v.props "_DATA" = some (PropEntry.pval true d) := h
  constructor
  · simp [View.invokeNamed, View.getProp, lookupProp, View.resolveCtx, propToVal, h9]
  · simp [View.invokeNamed, View.getProp, lookupProp, View.resolveCtx]

/-- C4 witness: the amended theorem at a concrete View and display. -/
theorem C4_addDisplay_context_witness :
    shoutAttached.invokeNamed "shout" [] = Except.ok (JSVal.vnum 0)
      ∧ shoutAttachedOther.invokeNamed "shout" [] = Except.ok (JSVal.vnum 5) :=
  C4_addDisplay_context sampleView shoutAttached shoutAttachedOther shoutRenderer
    (JSVal.vnum 5) (JSVal.vnum 0) [] rfl rfl rfl

/-- C5 counterexample: at the shared name length neither registration ever
happens: the first addDisplay already throws a TypeError (strict-mode write
to the non-writable own length property), so no later call can use a second
function; the length property keeps its original value. -/
theorem C5_counterexample :
    sampleView.addDisplay lengthClobberRenderer none = Except.error JSErr.typeError
      ∧ sampleView.getProp "length" = some (PropEntry.pval false (JSVal.vnum 0)) :=
  ⟨rfl, rfl⟩

/-- C5 (amended): whenever both attachments succeed, registering a second
display under the same name replaces the earlier entry: the property under
the shared name holds the second function, and every invocation under that
name evaluates only the second function (with the context resolved at the
second attachment); at the non-writable or restricted names addDisplay
throws a TypeError and neither registration nor replacement happens. -/
theorem C5_addDisplay_replaces (v v1 v2 : View) (g1 g2 : JSFun) (t1 t2 : Option JSVal)
    (args : List JSVal) (h : g1.name = g2.name)
    (h1 : v.addDisplay g1 t1 = Except.ok v1)
    (h2 : v1.addDisplay g2 t2 = Except.ok v2) :
    v2.getProp g1.name = some (PropEntry.pdisp g2 (v1.resolveCtx t2))
      ∧ v2.invokeNamed g1.name args = Except.ok (g2.call (v1.resolveCtx t2) args) := by
  have _e1 := addDisplay_ok_elim v v1 g1 t1 h1
  have e2 := addDisplay_ok_elim v1 v2 g2 t2 h2
  subst e2
  constructor
  · simp [View.getProp, lookupProp, h]
  · simp [View.invokeNamed, View.getProp, lookupProp, h]

/-- C5 witness: the amended theorem at two concrete displays sharing the
name f; the invocation yields the result of the second. -/
theorem C5_addDisplay_replaces_witness :
    fAttached2.getProp "f" = some (PropEntry.pdisp rend2 sampleData)
      ∧ fAttached2.invokeNamed "f" [] = Except.ok (JSVal.vnum 2) :=
  C5_addDisplay_replaces sampleView fAttached1 fAttached2 rend1 rend2 none none []
    rfl rfl rfl

/-- C6 counterexample: addDisplay with an anonymous function (empty
intrinsic name) raises nothing: it returns the View with the wrapper
silently registered under the empty-string property key, invocable through
it. -/
theorem C6_counterexample :
    sampleView.addDisplay anonRenderer none = Except.ok anonAttached
      ∧ anonAttached.invokeNamed "" [] = Except.ok (JSVal.vstr ['x']) :=
  ⟨rfl, rfl⟩

/-- C6 (amended): addDisplay performs no validation of the name of fn and
raises nothing for a function with no usable name: on a View without an
own empty-string property the attachment succeeds, silently registering the
wrapper under the empty-string property key, and invoking that key calls
the function with the bound data as context. -/
theorem C6_addDisplay_no_validation (v : View) (fn : JSFun) (d : JSVal)
    (args : List JSVal) (h1 : fn.name = "")
    (h2 : v.getProp "_DATA" = some (PropEntry.pval true d))
    (h0 : v.getProp "" = none) :
    v.addDisplay fn none
        = Except.ok ⟨v.body, ("", PropEntry.pdisp fn d) :: v.props⟩
      ∧ View.invokeNamed ⟨v.body, ("", PropEntry.pdisp fn d) :: v.props⟩ "" args
          = Except.ok (fn.call d args) := by
  have hres : v.resolveCtx none = d := by
    simp [View.resolveCtx, h2, propToVal]
  have hat : attachable v fn.name = true := by
    rw [h1]
    simp [attachable, restrictedName, h0]
  constructor
  · rw [addDisplay_ok_of_attachable v fn none hat, h1, hres]
  · simp [View.invokeNamed, View.getProp, lookupProp]

/-- C6 witness: the amended theorem at the concrete anonymous renderer. -/
theorem C6_addDisplay_no_validation_witness :
    sampleView.addDisplay anonRenderer none
        = Except.ok ⟨sampleView.body, ("", PropEntry.pdisp anonRenderer (JSVal.vnum 0)) :: sampleView.props⟩
      ∧ View.invokeNamed
          ⟨sampleView.body, ("", PropEntry.pdisp anonRenderer (JSVal.vnum 0)) :: sampleView.props⟩ "" []
          = Except.ok (JSVal.vstr ['x']) :=
  C6_addDisplay_no_validation sampleView anonRenderer (JSVal.vnum 0) [] rfl rfl rfl

/-- C7 counterexample: a named display returning a non-string value is
attached without error and invoked without any error: the non-string value
is returned as the result, so no non-string-result error is raised for
named displays. -/
theorem C7_counterexample :
    sampleView.addDisplay badResultRenderer none = Except.ok badAttached
      ∧ badAttached.invokeNamed "bad" [] = Except.ok (JSVal.vother 7) :=
  ⟨rfl, rfl⟩

/-- C7 (amended): the non-string check is not uniform: a default renderer
yielding a non-string raises a TypeError eagerly at construction time (the
escape step calls replace on the result), while the result of an attached
named renderer is not checked at all: whenever the attachment succeeded,
the named invocation returns whatever value the renderer produced. -/
theorem C7_nonstring_enforcement (f : JSVal → JSVal) (d : JSVal) (v v1 : View)
    (g : JSFun) (d2 : JSVal) (args : List JSVal) (h1 : ∀ s, f d ≠ JSVal.vstr s)
    (h2 : v.getProp "_DATA" = some (PropEntry.pval true d2))
    (h3 : v.addDisplay g none = Except.ok v1) :
    View.construct (some f) d = Except.error JSErr.typeError
      ∧ v1.invokeNamed g.name args = Except.ok (g.call d2 args) := by
  constructor
  · cases hfd : f d with
    | vstr s => exact absurd hfd (h1 s)
    | vnum n => simp only [View.construct, hfd]
    | vbool b => simp only [View.construct, hfd]
    | vundef => simp only [View.construct, hfd]
    | vfunMarker => simp only [View.construct, hfd]
    | vother t => simp only [View.construct, hfd]
  · have e := addDisplay_ok_elim v v1 g none h3
    subst e
    have h9 : lookupProp v.props "_DATA" = some (PropEntry.pval true d2) := h2
    simp [View.invokeNamed, View.getProp, lookupProp, View.resolveCtx, propToVal, h9]

/-- C7 witness: the amended theorem at the concrete non-string default and
the concrete non-string named display. -/
theorem C7_nonstring_enforcement_witness :
    View.construct (some nonStringDefault) (JSVal.vnum 0) = Except.error JSErr.typeError
      ∧ badAttached.invokeNamed "bad" [] = Except.ok (JSVal.vother 7) :=
  C7_nonstring_enforcement nonStringDefault (JSVal.vnum 0) sampleView badAttached
    badResultRenderer (JSVal.vnum 0) [] (fun _ h => JSVal.noConfusion h) rfl rfl

/-- C8 counterexample: the displays and the _DATA field share one
own-property namespace, so attaching a display whose intrinsic name is
_DATA (a writable property, unlike name or length) succeeds and overwrites
the bound data of the View: after the attachment the _DATA property no
longer holds the original data value. -/
theorem C8_counterexample :
    sampleView.getProp "_DATA" = some (PropEntry.pval true sampleData)
      ∧ sampleView.addDisplay dataClobberRenderer none = Except.ok clobberedView
      ∧ clobberedView.getProp "_DATA" ≠ some (PropEntry.pval true sampleData) := by
  refine ⟨rfl, rfl, ?_⟩
  intro hcontra
  simp [clobberedView, View.getProp, lookupProp, initProps, sampleData,
    dataClobberRenderer] at hcontra

/-- C8 (amended): a successful addDisplay writes exactly one own property,
the one named by the intrinsic name of fn, and leaves the compiled default
body and every property under a different key unchanged; at the
non-writable own properties name and length (and the restricted names) it
instead throws a TypeError and mutates nothing.  Because the displays and
_DATA share one namespace, a successful attachment named _DATA does
overwrite the data binding. -/
theorem C8_addDisplay_frame (v v1 : View) (fn : JSFun) (t : Option JSVal) (k : String)
    (h : k ≠ fn.name) (h1 : v.addDisplay fn t = Except.ok v1) :
    v1.body = v.body ∧ v1.getProp k = v.getProp k := by
  have e := addDisplay_ok_elim v v1 fn t h1
  subst e
  refine ⟨rfl, ?_⟩
  simp [View.getProp, lookupProp, if_neg (Ne.symm h)]

/-- C8 witness: the frame theorem at a concrete attachment, showing the
_DATA property untouched by a display named f. -/
theorem C8_addDisplay_frame_witness :
    fAttached1.body = sampleView.body
      ∧ fAttached1.getProp "_DATA" = sampleView.getProp "_DATA" :=
  C8_addDisplay_frame sampleView fAttached1 rend1 none "_DATA" (by decide) rfl

/-- C9 counterexample: a default display returning the literal string made
of a dollar-brace interpolation of the identifier r compiles to a body
holding that interpolation; at each no-selector invocation the interpolated
expression is re-evaluated against the ambient state (the oracle), so two
invocations of the same View return different strings when the ambient
state differs (as for an expression reading Math.random or a mutable
global), refuting that any two invocations return equal strings. -/
theorem C9_counterexample :
    View.construct (some interpDefault) sampleData = Except.ok interpView
      ∧ interpView.invoke oracleA = Except.ok ['0']
      ∧ interpView.invoke oracleB = Except.ok ['1']
      ∧ (['0'] : List Char) ≠ ['1'] :=
  ⟨rfl, rfl, rfl, by decide⟩

/-- C9 (amended): the default renderer is evaluated once, during
construction, and its escaped string result is fixed into the compiled
body; whenever that string contains no interpolation start and no carriage
return, every no-selector invocation returns exactly the fixed string,
under any ambient state (oracle) and any state of the property table (the
model of mutation of the bound data), so any two invocations agree; a
string containing a dollar-brace is instead re-evaluated at each invocation
and the results can differ. -/
theorem C9_default_fixed (oracle1 oracle2 : List Char → List Char) (f : JSVal → JSVal)
    (d : JSVal) (s : List Char) (v : View) (ps ps' : List (String × PropEntry))
    (h1 : f d = JSVal.vstr s) (h2 : hasDollarBrace s = false)
    (h3 : crFree s = true) (h4 : View.construct (some f) d = Except.ok v) :
    v.body = Body.template (escapeChars s)
      ∧ View.invoke oracle1 ⟨v.body, ps⟩ = Except.ok s
      ∧ View.invoke oracle2 ⟨v.body, ps'⟩ = Except.ok s := by
  have hb : v.body = Body.template (escapeChars s) := by
    simp only [View.construct] at h4
    rw [h1] at h4
    by_cases hwf : templateWF (escapeChars s) = true
    · simp only [hwf, if_true] at h4
      injection h4 with h5
      rw [← h5]
    · simp [hwf] at h4
  refine ⟨hb, ?_, ?_⟩
  · rw [hb]
    show Except.ok (evalTemplate oracle1 (escapeChars s)) = Except.ok s
    rw [evalTemplate_escape oracle1 s h2 h3]
  · rw [hb]
    show Except.ok (evalTemplate oracle2 (escapeChars s)) = Except.ok s
    rw [evalTemplate_escape oracle2 s h2 h3]

/-- C9 witness: the amended theorem at a concrete renderer, with two
different oracles and property tables standing for different ambient states
and a mutation of the data between invocations. -/
theorem C9_default_fixed_witness :
    constructedView.body = Body.template (escapeChars ['a'])
      ∧ View.invoke oracleA ⟨constructedView.body, []⟩ = Except.ok ['a']
      ∧ View.invoke oracleB
          ⟨constructedView.body, [("_DATA", PropEntry.pval true (JSVal.vnum 9))]⟩
          = Except.ok ['a'] :=
  C9_default_fixed oracleA oracleB (fun _ => JSVal.vstr ['a']) sampleData ['a']
    constructedView [] [("_DATA", PropEntry.pval true (JSVal.vnum 9))] rfl (by decide)
    (by decide) rfl

/-- C10 counterexample: the default display returns the two-character string
a followed by a carriage return, which contains no dollar-brace, yet the
no-selector invocation returns a followed by a line feed: template cooking
normalizes the carriage return, so the composition of the escaping with the
template evaluation is not the identity on that string. -/
theorem C10_counterexample :
    viewDefault jsExprEval (some (fun _ => JSVal.vstr ['a', '\r'])) (JSVal.vnum 0)
        = Except.ok ['a', '\n']
      ∧ (['a', '\n'] : List Char) ≠ ['a', '\r'] :=
  ⟨rfl, by decide⟩

/-- C10 (amended): for a default renderer whose returned string contains no
dollar-brace and no carriage return, the escaping of backslashes and
backticks composed with the template-literal evaluation at invocation is
the identity, so the no-selector invocation returns exactly the original
string; a carriage return (alone or followed by a line feed) is normalized
to a line feed by template cooking; a dollar-brace occurrence is not
escaped (escaping leaves it in place) and is evaluated as a template
interpolation at invocation, splicing in the oracle value of the
interpolated expression. -/
theorem C10_escape_roundtrip (oracle : List Char → List Char) (f : JSVal → JSVal)
    (d : JSVal) (s u content rest : List Char) (h1 : f d = JSVal.vstr s)
    (h2 : hasDollarBrace s = false) (h2cr : crFree s = true)
    (h3 : content.all (fun x => x != '}') = true) :
    viewDefault oracle (some f) d = Except.ok s
      ∧ escapeChars ('$' :: '{' :: u) = '$' :: '{' :: escapeChars u
      ∧ evalTemplate oracle ('$' :: '{' :: (content ++ '}' :: rest))
          = oracle content ++ evalTemplate oracle rest := by
  refine ⟨viewDefault_no_interp oracle f d s h1 h2 h2cr, ?_,
    evalTemplate_interp oracle content rest h3⟩
  rw [escapeChars_cons_other '$' _ (by decide) (by decide),
    escapeChars_cons_other '{' _ (by decide) (by decide)]

/-- C10 witness: the amended theorem at concrete strings; in particular the
body made of a dollar-brace interpolation of the numeral 0 followed by b
evaluates to 0 followed by b. -/
theorem C10_escape_roundtrip_witness :
    viewDefault jsExprEval (some (fun _ => JSVal.vstr ['a', 'b'])) (JSVal.vnum 0)
        = Except.ok ['a', 'b']
      ∧ escapeChars ['$', '{', 'z'] = '$' :: '{' :: escapeChars ['z']
      ∧ evalTemplate jsExprEval ('$' :: '{' :: (['0'] ++ '}' :: ['b']))
          = jsExprEval ['0'] ++ evalTemplate jsExprEval ['b'] :=
  C10_escape_roundtrip jsExprEval (fun _ => JSVal.vstr ['a', 'b']) (JSVal.vnum 0)
    ['a', 'b'] ['z'] ['0'] ['b'] rfl (by decide) (by decide) (by decide)
